import Mathlib

/-!
Verification of the Prompt Perfect backend (`src/index.js`).

The core under specification is the Prompt Analysis & Instruction-Assembly
Engine: the complexity classifier `detectPromptComplexity`, the task-type
classifier `detectTaskType`, the guide-fragment selector
`selectRelevantPrinciples`, the platform-alias normalization, and the
credit-deduction tail of the `/api/enhance` handler.

The JavaScript is embedded shallowly over `List Char`:
  * JS strings become `List Char` (wrapped in `String` at the boundary);
  * the JS regular expressions of the pattern library are hand-compiled to
    explicit matching functions (anchored alternation, `\s`, `\b`, `\w`,
    `\d`, `.`-without-dotall, global match counting), following ECMAScript
    semantics: alternatives are tried left to right with backtracking,
    `\s` is the full ECMAScript whitespace set, `.` excludes line
    terminators, and case-insensitive matching is modelled by ASCII
    lowercasing (`toLowerCase` on the ASCII range, which covers every
    pattern in the library);
  * the filler-density comparison `fillerWords / wordCount > 0.2` is
    modelled exactly over the rationals as `5 * fillerWords > wordCount`;
  * `Array.prototype.sort` with comparator `(a, b) => pA - pB` is the
    stable sort by that key (stable since Node ≥ 11); a stable sorted
    permutation is unique, so it is modelled by a stable insertion sort;
  * JS objects used as records become structures with `Option` fields
    (`undefined` = `none`); the falsy-default read `a.priority || 999`
    is modelled by mapping both `none` and `0` to `999`.
-/

namespace PromptPerfect

/-! ## Character classes (ECMAScript `\s`, `\w`, `\d`, line terminators) -/

/-- ECMAScript whitespace (`\s`): tab, LF, VT, FF, CR, space, NBSP, Ogham
space mark, the U+2000–U+200A range, LS, PS, NNBSP, MMSP, ideographic
space, and BOM. -/
def isJsSpace (c : Char) : Bool :=
  c.toNat == 32 || c.toNat == 9 || c.toNat == 10 || c.toNat == 11 ||
  c.toNat == 12 || c.toNat == 13 || c.toNat == 0xA0 || c.toNat == 0x1680 ||
  (decide (0x2000 ≤ c.toNat) && decide (c.toNat ≤ 0x200A)) ||
  c.toNat == 0x2028 || c.toNat == 0x2029 || c.toNat == 0x202F ||
  c.toNat == 0x205F || c.toNat == 0x3000 || c.toNat == 0xFEFF

/-- ECMAScript line terminators, the characters not matched by `.`
without the `s` flag: LF, CR, LS, PS. -/
def isLineTerm (c : Char) : Bool :=
  c.toNat == 10 || c.toNat == 13 || c.toNat == 0x2028 || c.toNat == 0x2029

/-- ECMAScript word character (`\w`): ASCII letters, digits, underscore. -/
def isWordC (c : Char) : Bool :=
  (decide (97 ≤ c.toNat) && decide (c.toNat ≤ 122)) ||
  (decide (65 ≤ c.toNat) && decide (c.toNat ≤ 90)) ||
  (decide (48 ≤ c.toNat) && decide (c.toNat ≤ 57)) ||
  c.toNat == 95

/-- ECMAScript digit (`\d`). -/
def isDigitC (c : Char) : Bool :=
  decide (48 ≤ c.toNat) && decide (c.toNat ≤ 57)

/-- ASCII lowercasing of one character, modelling `String.toLowerCase`
on the ASCII range (every pattern in the library is ASCII). -/
def lowerC (c : Char) : Char :=
  if 65 ≤ c.toNat ∧ c.toNat ≤ 90 then Char.ofNat (c.toNat + 32) else c

/-- Lowercase a character list. -/
def lower (l : List Char) : List Char := l.map lowerC

/-- The characters of a string literal, as a `List Char`. -/
def sChars (s : String) : List Char := s.data

/-- Convert a list of string literals to character lists. -/
def csl (l : List String) : List (List Char) := l.map sChars

/-! ## Elementary matching functions -/

/-- Whether the first list is a prefix of the second. -/
def pfxOf : List Char → List Char → Bool
  | [], _ => true
  | _ :: _, [] => false
  | a :: as, b :: bs => a == b && pfxOf as bs

/-- Whether some suffix of the list satisfies `f` (including the empty
suffix): models an unanchored regex match attempt at every position. -/
def anySuffix (f : List Char → Bool) : List Char → Bool
  | [] => f []
  | c :: cs => f (c :: cs) || anySuffix f cs

/-- Whether `pat` occurs as a contiguous sublist of `s`
(JS `String.prototype.includes` / an unanchored literal regex). -/
def hasSub (pat : List Char) (s : List Char) : Bool :=
  anySuffix (pfxOf pat) s

/-- Whether any of the literal alternatives occurs in `s`: models
`/(p1|p2|...)/.test(s)` for literal alternatives. -/
def containsAny (pats : List (List Char)) (s : List Char) : Bool :=
  pats.any (fun p => hasSub p s)

/-- JS `trim()`: strip whitespace from both ends. -/
def trimJs (l : List Char) : List Char :=
  ((l.dropWhile isJsSpace).reverse.dropWhile isJsSpace).reverse

/-- Word count of `split(/\s+/).filter(w => w.length > 0)`: the number of
maximal runs of non-whitespace characters.  The Boolean argument records
whether the previous character belonged to a word. -/
def countWordsAux : List Char → Bool → Nat
  | [], _ => 0
  | c :: cs, inWord =>
    if isJsSpace c then countWordsAux cs false
    else (if inWord then 0 else 1) + countWordsAux cs true

/-- Number of whitespace-separated words in `l`. -/
def countWords (l : List Char) : Nat := countWordsAux l false

/-! ## Word-boundary global match counting

Models `(s.match(/\b(a1|a2|...)\b/g) || []).length` for literal
alternatives that begin and end with word characters (true of every
alternative used in the source): a match at a position requires the
previous character to be a non-word character (or the string start), the
alternative to occur literally, and the following character to be a
non-word character (or the string end).  Scanning is left to right;
alternatives are tried in pattern order; a match advances past its end,
exactly as a global regex does. -/

/-- Boundary check after a matched alternative: end of input or a
non-word character. -/
def bdryAfter : List Char → Bool
  | [] => true
  | c :: _ => !isWordC c

/-- First alternative (in pattern order) matching at the head of `s`
with a word boundary after it. -/
def pickAlt : List (List Char) → List Char → Option (List Char)
  | [], _ => none
  | a :: as, s =>
    if pfxOf a s && bdryAfter (s.drop a.length) then some a else pickAlt as s

/-- Left-to-right scan for global `\b(...)\b` matches.  `prev` is the
character before the current position (`none` at the string start);
`skip` is the number of remaining characters of a match already counted,
which are stepped over one at a time (so the recursion is structural). -/
def scanAux (alts : List (List Char)) : List Char → Option Char → Nat → Nat
  | [], _, _ => 0
  | c :: cs, prev, skip =>
    match skip with
    | k + 1 => scanAux alts cs (some c) k
    | 0 =>
      let bOk : Bool := match prev with | none => true | some p => !isWordC p
      match bOk, pickAlt alts (c :: cs) with
      | true, some a => 1 + scanAux alts cs (some c) (a.length - 1)
      | _, _ => scanAux alts cs (some c) 0

/-- Count of global `\b(...)\b` matches in the text; `prev` is the
character before the current position (`none` at the string start). -/
def scanCount (alts : List (List Char)) (prev : Option Char) (l : List Char) : Nat :=
  scanAux alts l prev 0

/-! ## Pattern library (§4.1): the literal alternative lists of the source
regexes, in source order. -/

/-- Alternatives of the conversational-prefix regex
`/^(hey|hi|hello|please|can you|could you|would you|i need you to|i want you to|help me|assist me|i need|i want)\s*` `/i`. -/
def convAlts : List (List Char) :=
  csl ["hey", "hi", "hello", "please", "can you", "could you", "would you",
       "i need you to", "i want you to", "help me", "assist me", "i need", "i want"]

/-- Language/tool alternatives of `shortButClearPattern`. -/
def langTopicAlts : List (List Char) :=
  csl ["python", "javascript", "java", "react", "node", "sql", "html", "css",
       "typescript", "go", "rust", "git", "docker", "aws", "linux", "bash",
       "c++", "c#", "ruby", "php", "swift", "kotlin"]

/-- Interrogative alternatives of the second short-but-clear pattern
`/^(explain|what is|how to|how do i|difference between|compare)\s+\w/i`. -/
def explainAlts : List (List Char) :=
  csl ["explain", "what is", "how to", "how do i", "difference between", "compare"]

/-- Leading interrogatives of the technical-question pattern. -/
def techQAlts : List (List Char) :=
  csl ["how", "what", "why", "when", "where", "which", "can i", "should i"]

/-- Trailing keywords of the technical-question pattern. -/
def techKeyAlts : List (List Char) :=
  csl ["code", "function", "error", "bug", "work", "use", "implement", "create"]

/-- Filler words counted by `/\b(...)\b/g` on the lowercased prompt. -/
def fillerAlts : List (List Char) :=
  csl ["something", "thing", "stuff", "really", "very", "just", "like",
       "kind of", "sort of", "basically", "actually", "maybe", "probably",
       "cool", "nice", "good", "great", "amazing", "awesome"]

/-- Multi-part request indicators counted by `/\b(...)\b/g`. -/
def multiAlts : List (List Char) :=
  csl ["and also", "and then", "also", "as well as", "plus", "additionally"]

/-- Explicit-constraint alternatives (the `under \d+` alternative is
handled separately below; `don't` appears twice in the source regex, which
is redundant for a membership test). -/
def constrAlts : List (List Char) :=
  csl ["without", "don't", "do not", "don't", "no ", "never",
       "less than", "at most", "maximum", "brief", "short", "concise",
       "simple", "basic"]

/-- Single characters of the code-context class `[{}\[\]();]`. -/
def codeCtxChars : List Char := ['{', '}', '[', ']', '(', ')', ';']

/-- Literal substring alternatives of the code-context regex. -/
def codeCtxStrs : List (List Char) :=
  csl ["=>", "error:", "exception:", "undefined", "null", "true", "false"]

/-- Direct-task verbs. -/
def directAlts : List (List Char) :=
  csl ["write", "create", "build", "make", "generate", "code", "develop",
       "design", "implement", "explain", "show", "give", "list", "find",
       "fix", "debug", "convert", "translate"]

/-- Specific-subject nouns. -/
def subjAlts : List (List Char) :=
  csl ["function", "program", "script", "app", "website", "api", "class",
       "method", "component", "page", "form", "button", "table", "list",
       "array", "string", "number", "file", "database", "server", "client"]

/-- Language/tool names of the `hasLanguageOrTool` detector. -/
def langToolAlts : List (List Char) :=
  csl ["python", "javascript", "java", "react", "node", "sql", "html", "css",
       "typescript", "go", "rust", "c++", "angular", "vue", "express",
       "django", "flask", "spring", "mongodb", "postgres", "redis"]

/-- Contextual prepositions of the `lacksContext` detector. -/
def ctxAlts : List (List Char) :=
  csl ["for", "using", "with", "that", "which", "to", "in", "on", "about", "from"]

/-- Ambiguity markers of the `isAmbiguous` detector. -/
def ambigAlts : List (List Char) :=
  csl ["something", "thing", "stuff", "help", "assist", "do this", "do that"]

/-- Structure markers.  `requirements?`, `specifications?` and
`constraints?` match exactly when their stem occurs, so the stems stand
for them. -/
def structAlts : List (List Char) :=
  csl ["step", "first", "then", "also", "include", "should", "must",
       "requirement", "specification", "criteria", "constraint"]

/-! ## Compiled detectors of `detectPromptComplexity` -/

/-- Strip the leading conversational prefix:
`userPrompt.replace(conversationalPrefixes, '').trim()`.  The regex is
anchored and case-insensitive, and `\s*` always succeeds, so the first
alternative (in pattern order) that is a case-insensitive prefix wins; the
replacement removes it together with the following whitespace run. -/
def stripConv (s : List Char) : List Char :=
  match convAlts.find? (fun a => pfxOf a (lower s)) with
  | some a => trimJs ((s.drop a.length).dropWhile isJsSpace)
  | none => trimJs s

/-- Anchored `^alt\s+\w` match for one alternative: the alternative is a
case-insensitive prefix, followed by at least one whitespace character and
then a word character.  (`\s+` must stop exactly at the end of the
whitespace run, since the next pattern character is `\w`.) -/
def altWsWord (alt : List Char) (s : List Char) : Bool :=
  pfxOf alt (lower s) &&
  (let r := s.drop alt.length
   let w := r.takeWhile isJsSpace
   decide (1 ≤ w.length) &&
   (match (r.drop w.length).head? with
    | some c => isWordC c
    | none => false))

/-- `shortButClearPattern.test(cleanedPrompt) || /^(explain|...)\s+\w/i.test(cleanedPrompt)`. -/
def isShortButClearOf (cleaned : List Char) : Bool :=
  langTopicAlts.any (fun a => altWsWord a cleaned) ||
  explainAlts.any (fun a => altWsWord a cleaned)

/-- Anchored `^alt\s+.*(k1|k2|...)` match for one interrogative: the
alternative is a case-insensitive prefix, followed by at least one
whitespace character; since `\s+` may absorb the whole initial whitespace
run (including line terminators) and `.` matches everything except line
terminators, a keyword must occur in the maximal line-terminator-free
segment that follows the whitespace run. -/
def techQAt (alt : List Char) (s : List Char) : Bool :=
  pfxOf alt (lower s) &&
  (let r := s.drop alt.length
   let w := r.takeWhile isJsSpace
   decide (1 ≤ w.length) &&
   containsAny techKeyAlts (lower ((r.drop w.length).takeWhile (fun c => !isLineTerm c))))

/-- `/^(how|what|why|when|where|which|can i|should i)\s+.*(code|function|error|bug|work|use|implement|create)/i.test(cleanedPrompt)`. -/
def isTechnicalQuestionOf (cleaned : List Char) : Bool :=
  techQAlts.any (fun a => techQAt a cleaned)

/-- `under \d+` occurring anywhere: `"under "` followed by a digit. -/
def underNumAt (s : List Char) : Bool :=
  pfxOf (sChars "under ") s &&
  (match (s.drop 6).head? with
   | some c => isDigitC c
   | none => false)

/-- `hasExplicitConstraints` on the lowercased original prompt. -/
def hasExplicitConstraintsOf (origLower : List Char) : Bool :=
  containsAny constrAlts origLower || anySuffix underNumAt origLower

/-- `function\s*\(` occurring at the head of `s` (on lowercased text). -/
def funcCallAt (s : List Char) : Bool :=
  pfxOf (sChars "function") s &&
  (match (s.drop 8).dropWhile isJsSpace with
   | c :: _ => c == '('
   | [] => false)

/-- `hasCodeContext`:
`/[{}\[\]();]|function\s*\(|=>|error:|exception:|undefined|null|true|false/i.test(userPrompt)`. -/
def hasCodeContextOf (orig : List Char) : Bool :=
  orig.any (fun c => codeCtxChars.any (fun b => b == c)) ||
  anySuffix funcCallAt (lower orig) ||
  containsAny codeCtxStrs (lower orig)

/-- Count of sentence terminators: `(userPrompt.match(/[.!?]/g) || []).length`. -/
def sentenceCount (orig : List Char) : Nat :=
  orig.countP (fun c => c == '.' || c == '!' || c == '?')

/-! ## Complexity classifier (§4.2, source lines 589–700) -/

/-- Complexity category: `{simple, moderate, detailed, vague}`. -/
inductive Category where
  | simple
  | moderate
  | detailed
  | vague
deriving DecidableEq, Repr

/-- The classification signals computed by `detectPromptComplexity`
before its decision tree, one field per source binding. -/
structure CFeatures where
  wordCount : Nat
  isShortButClear : Bool
  isTechnicalQuestion : Bool
  hasHighFillerDensity : Bool
  hasMultipleTasks : Bool
  hasExplicitConstraints : Bool
  hasCodeContext : Bool
  hasDirectTask : Bool
  hasSpecificSubject : Bool
  hasLanguageOrTool : Bool
  isVeryShort : Bool
  lacksContext : Bool
  isAmbiguous : Bool
  hasMultipleSentences : Bool
  hasStructure : Bool
  isLong : Bool
deriving DecidableEq, Repr

/-- The preprocessing and detector section of `detectPromptComplexity`
(source lines 594–647).  `fillerWords / wordCount > 0.2` is stated over
the rationals as `wordCount < 5 * fillerWords` (with density 0 when the
word count is 0, as in the source). -/
def analyzePrompt (userPrompt : List Char) : CFeatures :=
  let cleaned := stripConv userPrompt
  let wc := countWords cleaned
  let promptLower := lower cleaned
  let originalLower := lower userPrompt
  let fillerWords := scanCount fillerAlts none originalLower
  { wordCount := wc
    isShortButClear := isShortButClearOf cleaned
    isTechnicalQuestion := isTechnicalQuestionOf cleaned
    hasHighFillerDensity := decide (0 < wc) && decide (wc < 5 * fillerWords)
    hasMultipleTasks :=
      decide (2 ≤ scanCount multiAlts none originalLower) ||
      decide (3 ≤ scanCount (csl ["and"]) none originalLower)
    hasExplicitConstraints := hasExplicitConstraintsOf originalLower
    hasCodeContext := hasCodeContextOf userPrompt
    hasDirectTask := containsAny directAlts promptLower
    hasSpecificSubject := containsAny subjAlts promptLower
    hasLanguageOrTool := containsAny langToolAlts promptLower
    isVeryShort := decide (wc ≤ 3)
    lacksContext := !(containsAny ctxAlts promptLower)
    isAmbiguous := containsAny ambigAlts promptLower && decide (wc < 10)
    hasMultipleSentences := decide (2 ≤ sentenceCount userPrompt)
    hasStructure := containsAny structAlts promptLower
    isLong := decide (30 ≤ wc) }

/-- The decision tree of `detectPromptComplexity` (source lines 649–699),
branch by branch in source order. -/
def complexityDecision (f : CFeatures) : Category :=
  if f.isShortButClear && decide (2 ≤ f.wordCount) && decide (f.wordCount ≤ 6) then .simple
  else if f.isTechnicalQuestion && decide (f.wordCount ≤ 15) then .simple
  else if f.hasCodeContext && f.hasDirectTask then .simple
  else if f.hasHighFillerDensity && !f.hasSpecificSubject && !f.hasLanguageOrTool then .vague
  else if f.hasMultipleTasks && decide (f.wordCount < 25) then .moderate
  else if f.hasExplicitConstraints && f.hasDirectTask then .simple
  else if f.hasDirectTask && (f.hasSpecificSubject || f.hasLanguageOrTool) &&
          decide (4 ≤ f.wordCount) && decide (f.wordCount ≤ 20) then .simple
  else if f.isLong || (f.hasMultipleSentences && f.hasStructure) then .detailed
  else if f.isVeryShort || (f.lacksContext && f.isAmbiguous) then .vague
  else .moderate

/-- `detectPromptComplexity` over a character list. -/
def detectPromptComplexityC (userPrompt : List Char) : Category :=
  complexityDecision (analyzePrompt userPrompt)

/-- `detectPromptComplexity(userPrompt)` (source lines 589–700). -/
def detectPromptComplexity (s : String) : Category :=
  detectPromptComplexityC s.data

/-! ## The spec's ordered rule list for the complexity classifier (§4.2)

The specification describes the classifier as an ordered list of
(condition, category) rules evaluated first-match-wins with default
`moderate`.  `complexityRules` is that list, written from the spec's
procedure: edge rules (a)–(f), then standard rules (a)–(c). -/

/-- The spec's rules in order: edge (a) short-but-clear, (b) technical
question, (c) code context + direct task, (d) high filler density,
(e) multiple tasks, (f) explicit constraints; standard (a) direct task
with subject/tool and word count in [4,20], (b) long or multi-sentence
structured, (c) very short or ambiguous. -/
def complexityRules (f : CFeatures) : List (Bool × Category) :=
  [ (f.isShortButClear && decide (2 ≤ f.wordCount) && decide (f.wordCount ≤ 6), .simple),
    (f.isTechnicalQuestion && decide (f.wordCount ≤ 15), .simple),
    (f.hasCodeContext && f.hasDirectTask, .simple),
    (f.hasHighFillerDensity && !f.hasSpecificSubject && !f.hasLanguageOrTool, .vague),
    (f.hasMultipleTasks && decide (f.wordCount < 25), .moderate),
    (f.hasExplicitConstraints && f.hasDirectTask, .simple),
    (f.hasDirectTask && (f.hasSpecificSubject || f.hasLanguageOrTool) &&
       decide (4 ≤ f.wordCount) && decide (f.wordCount ≤ 20), .simple),
    (f.isLong || (f.hasMultipleSentences && f.hasStructure), .detailed),
    (f.isVeryShort || (f.lacksContext && f.isAmbiguous), .vague) ]

/-- Evaluate an ordered rule list: the category of the first rule whose
condition holds, `moderate` when no rule fires. -/
def firstFire : List (Bool × Category) → Category
  | [] => .moderate
  | (b, c) :: rs => if b then c else firstFire rs

/-! ## Task-type classifier (§4.3, source lines 1547–1580) -/

/-- Task type: `{code_generation, formal_writing, creative_writing,
data_analysis, reasoning_and_analysis, general}`. -/
inductive TaskType where
  | code_generation
  | formal_writing
  | creative_writing
  | data_analysis
  | reasoning_and_analysis
  | general
deriving DecidableEq, Repr

/-- Code-generation vocabulary (first regex of the check). -/
def cgVocabA : List (List Char) :=
  csl ["code", "function", "api", "debug", "fix", "script", "program",
       "algorithm", "implement", "bug"]

/-- Code-generation vocabulary (second regex: language names). -/
def cgVocabB : List (List Char) :=
  csl ["javascript", "python", "java", "react", "node", "sql", "html", "css"]

/-- Formal-writing vocabulary (first regex). -/
def fwVocabA : List (List Char) :=
  csl ["write", "email", "document", "report", "letter", "memo", "proposal",
       "essay", "article"]

/-- Formal-writing vocabulary (second regex). -/
def fwVocabB : List (List Char) :=
  csl ["formal", "professional", "business", "academic"]

/-- Creative-writing vocabulary (first regex). -/
def cwVocabA : List (List Char) :=
  csl ["story", "narrative", "poem", "creative", "fiction", "character",
       "plot", "dialogue"]

/-- Creative-writing vocabulary (second regex). -/
def cwVocabB : List (List Char) :=
  csl ["imagine", "invent", "brainstorm", "ideate"]

/-- Data-analysis vocabulary (first regex). -/
def daVocabA : List (List Char) :=
  csl ["analyze", "data", "csv", "json", "statistics", "chart", "graph",
       "evaluate", "compare"]

/-- Data-analysis vocabulary (second regex). -/
def daVocabB : List (List Char) :=
  csl ["dataset", "metrics", "insights", "trends", "visualize"]

/-- Reasoning/analysis vocabulary. -/
def raVocab : List (List Char) :=
  csl ["reasoning", "logic", "solve", "calculate", "math", "problem",
       "think", "analyze"]

/-- `detectTaskType` over a character list, branch by branch in source
order. -/
def detectTaskTypeC (userPrompt : List Char) : TaskType :=
  let promptLower := lower userPrompt
  if containsAny cgVocabA promptLower || containsAny cgVocabB promptLower then .code_generation
  else if containsAny fwVocabA promptLower || containsAny fwVocabB promptLower then .formal_writing
  else if containsAny cwVocabA promptLower || containsAny cwVocabB promptLower then .creative_writing
  else if containsAny daVocabA promptLower || containsAny daVocabB promptLower then .data_analysis
  else if containsAny raVocab promptLower then .reasoning_and_analysis
  else .general

/-- `detectTaskType(userPrompt)` (source lines 1547–1580). -/
def detectTaskType (s : String) : TaskType :=
  detectTaskTypeC s.data

/-- The spec's ordered category checks for the task-type classifier. -/
def taskRules (promptLower : List Char) : List (Bool × TaskType) :=
  [ (containsAny cgVocabA promptLower || containsAny cgVocabB promptLower, .code_generation),
    (containsAny fwVocabA promptLower || containsAny fwVocabB promptLower, .formal_writing),
    (containsAny cwVocabA promptLower || containsAny cwVocabB promptLower, .creative_writing),
    (containsAny daVocabA promptLower || containsAny daVocabB promptLower, .data_analysis),
    (containsAny raVocab promptLower, .reasoning_and_analysis) ]

/-- Evaluate the ordered task checks: first match wins, default
`general`. -/
def firstTask : List (Bool × TaskType) → TaskType
  | [] => .general
  | (b, t) :: rs => if b then t else firstTask rs

/-! ## Guide document data model (§3)

JS objects with optional fields become structures over `Option`
(`undefined` = `none`).  `priority` is a JS integer, hence `Int`. -/

/-- One principle of a guide document:
`{title, content, detection_patterns?, priority?}`. -/
structure Principle where
  title : String
  content : String
  detection_patterns : Option (List String)
  priority : Option Int
deriving DecidableEq, Repr

/-- One structural element or anti-pattern: `{title, content}`. -/
structure Fragment where
  title : String
  content : String
deriving DecidableEq, Repr

/-- One task-specific guide entry:
`{title, content, example?: {before, after}}`. -/
structure TaskGuideEntry where
  title : String
  content : String
  «example» : Option (String × String)
deriving DecidableEq, Repr

/-- The `guide` object inside `guide_data`; every field optional. -/
structure GuideInner where
  principles : Option (List Principle)
  structural_elements : Option (List Fragment)
  anti_patterns : Option (List Fragment)
  task_specific_guides : Option (List (TaskType × List TaskGuideEntry))
deriving DecidableEq, Repr

/-- The stored `guide_data` value, whose `guide` field may be absent. -/
structure GuideData where
  guide : Option GuideInner
deriving DecidableEq, Repr

/-! ## Stable sort by an integer key

`[...allPrinciples].sort((a, b) => priorityA - priorityB)` is a stable
sort by the key (stable in every Node version running this code); the
stable sorted permutation is unique, so a stable insertion sort embeds
it.  `insOrd` inserts behind every earlier element whose key is strictly
smaller, and in front of the first element whose key is at least as
large, so elements with equal keys keep their original order. -/

/-- Insert `x` into a sorted list, after all elements with strictly
smaller key (stable for equal keys). -/
def insOrd {α : Type} (k : α → Int) (x : α) : List α → List α
  | [] => [x]
  | y :: ys => if k y < k x then y :: insOrd k x ys else x :: y :: ys

/-- Stable insertion sort by an integer key. -/
def sortByKey {α : Type} (k : α → Int) : List α → List α
  | [] => []
  | x :: xs => insOrd k x (sortByKey k xs)

/-- The sort key actually computed by the source, `a.priority || 999`:
`||` takes the fallback on every falsy value, so a priority of `0` reads
as `999`, exactly like an absent priority. -/
def priKey (pr : Principle) : Int :=
  match pr.priority with
  | none => 999
  | some v => if v = 0 then 999 else v

/-- The sort key as the spec's words describe it: `999` only when the
priority field is absent. -/
def claimKey (pr : Principle) : Int := pr.priority.getD 999

/-! ## Guide fragment selector (§4.4, source lines 1480–1514) -/

/-- Whether a principle's `detection_patterns` contain a case-insensitive
substring of the prompt (`promptLower.includes(pattern.toLowerCase())`);
an absent field is falsy and never matches. -/
def principleMatches (promptLower : List Char) (pr : Principle) : Bool :=
  match pr.detection_patterns with
  | none => false
  | some pats => pats.any (fun pat => hasSub (lower (sChars pat)) promptLower)

/-- `selectRelevantPrinciples(userPrompt, allPrinciples)` over character
lists, line by line: collect the matching principles, sort a copy of the
whole input by `priority || 999`, and if fewer than 3 matched, append
sorted principles whose title is not among the matched ones, up to
`5 - relevant.length` of them; finally truncate to 5.  (The source copies
each matched principle with an extra `matched: true` field that nothing
reads; the copy is dropped here.) -/
def selectRelevantPrinciplesC (userPrompt : List Char) (allPrinciples : List Principle) :
    List Principle :=
  let promptLower := lower userPrompt
  let relevantPrinciples := allPrinciples.filter (principleMatches promptLower)
  let sortedPrinciples := sortByKey priKey allPrinciples
  let result :=
    if relevantPrinciples.length < 3 then
      relevantPrinciples ++
        (sortedPrinciples.filter
          (fun p => !(relevantPrinciples.any (fun rp => rp.title == p.title)))).take
          (5 - relevantPrinciples.length)
    else relevantPrinciples
  result.take 5

/-- `selectRelevantPrinciples` (source lines 1480–1514). -/
def selectRelevantPrinciples (prompt : String) (ps : List Principle) : List Principle :=
  selectRelevantPrinciplesC prompt.data ps

/-- The spec's selection algorithm (§4.4), parameterized by the backfill
sort key: partition into relevant and rest, backfill from the rest sorted
ascending by the key when fewer than 3 are relevant, skipping titles
already selected, until 5 are selected or the pool is exhausted, then
truncate to 5. -/
def specSelect (key : Principle → Int) (userPrompt : List Char) (ps : List Principle) :
    List Principle :=
  let promptLower := lower userPrompt
  let relevant := ps.filter (principleMatches promptLower)
  let rest := ps.filter (fun pr => !(principleMatches promptLower pr))
  let backfill :=
    if relevant.length < 3 then
      ((sortByKey key rest).filter
        (fun p => !(relevant.any (fun rp => rp.title == p.title)))).take
        (5 - relevant.length)
    else []
  (relevant ++ backfill).take 5

/-- The claim's reading of the selector: backfill in ascending priority
order with only an absent priority sorting as `999`. -/
def claimSelectPrinciples (prompt : String) (ps : List Principle) : List Principle :=
  specSelect claimKey prompt.data ps

/-- The selector as amended: a priority that is absent or `0` sorts as
`999` (the falsy-default read). -/
def amendedSelectPrinciples (prompt : String) (ps : List Principle) : List Principle :=
  specSelect priKey prompt.data ps

/-! ## Instruction-assembly fragment selection (source lines 1516–1601)

Each block of the relevance-tiered assembler guards on the presence of
its guide field (`guide_data.guide && guide_data.guide.X`), so an absent
field contributes no fragments. -/

/-- Principles injected by the assembler: `selectRelevantPrinciples` when
`guide_data.guide.principles` is present, nothing otherwise. -/
def selectedPrinciplesOf (userPrompt : List Char) (g : GuideData) : List Principle :=
  match g.guide with
  | none => []
  | some gi =>
    match gi.principles with
    | none => []
    | some ps => selectRelevantPrinciplesC userPrompt ps

/-- Structural elements injected by the assembler: the first 2, in given
order. -/
def selectedStructuralOf (g : GuideData) : List Fragment :=
  match g.guide with
  | none => []
  | some gi =>
    match gi.structural_elements with
    | none => []
    | some es => es.take 2

/-- Anti-patterns injected by the assembler: the first 3, in given
order. -/
def selectedAntiPatternsOf (g : GuideData) : List Fragment :=
  match g.guide with
  | none => []
  | some gi =>
    match gi.anti_patterns with
    | none => []
    | some es => es.take 3

/-- Task-specific guide entries injected by the assembler: included
verbatim when the task type is not `general` and the key exists. -/
def selectedTaskGuidesOf (tt : TaskType) (g : GuideData) : List TaskGuideEntry :=
  if tt = .general then []
  else
    match g.guide with
    | none => []
    | some gi =>
      match gi.task_specific_guides with
      | none => []
      | some m =>
        match m.lookup tt with
        | none => []
        | some gs => gs

/-! ## Platform alias normalization (source lines 544–559) -/

/-- The static alias table `platformMapping`, in source order. -/
def platformAliases : List (String × String) :=
  [("chatgpt", "GPT 5"), ("gpt", "GPT 5"), ("openai", "GPT 5"),
   ("claude", "Claude Sonnet 4"), ("claude.ai", "Claude Sonnet 4"),
   ("gemini", "Gemini 2.5"), ("google", "Gemini 2.5"),
   ("ChatGPT", "GPT 5"), ("Claude", "Claude Sonnet 4"), ("Gemini", "Gemini 2.5")]

/-- ASCII lowercasing of a string (`platform.toLowerCase()`; the alias
keys are all ASCII). -/
def lowerStr (s : String) : String := { data := lower s.data }

/-- The own property names of `Object.prototype`: `platformMapping` is a
plain object literal, so `platformMapping[k]` falls back to the
prototype chain when `k` is not an own key, and for these names it finds
an inherited member (a function, or `Object.prototype` itself for
`__proto__`) — always truthy, never a string. -/
def protoProps : List String :=
  ["constructor", "hasOwnProperty", "isPrototypeOf", "propertyIsEnumerable",
   "toLocaleString", "toString", "valueOf", "__defineGetter__",
   "__defineSetter__", "__lookupGetter__", "__lookupSetter__", "__proto__"]

/-- A JavaScript value reachable from the platform-mapping expression:
a string, or a truthy non-string member inherited from
`Object.prototype` (recorded by the property name that reached it). -/
inductive JsVal where
  | str (s : String)
  | protoMember (name : String)
deriving DecidableEq, Repr

/-- `platformMapping[k]` for the object literal: the own property when
the key is an own key, the inherited `Object.prototype` member when the
key is a prototype property name, `undefined` (`none`) otherwise. -/
def jsIndex (table : List (String × String)) (k : String) : Option JsVal :=
  match table.lookup k with
  | some v => some (JsVal.str v)
  | none => if protoProps.contains k then some (JsVal.protoMember k) else none

/-- `platformMapping[platform] || platformMapping[platform.toLowerCase()] || platform`:
the exact-case access first, then the lowercased access, then the input
itself.  Every value either access can produce is truthy (the own values
are non-empty strings; the inherited prototype members are functions or
objects), so `||` takes the first access that is not `undefined`. -/
def mappedPlatform (platform : String) : JsVal :=
  match jsIndex platformAliases platform with
  | some v => v
  | none =>
    match jsIndex platformAliases (lowerStr platform) with
    | some v => v
    | none => JsVal.str platform

/-- The lowercase rows of the alias table, in source order. -/
def lowerAliases : List (String × String) :=
  [("chatgpt", "GPT 5"), ("gpt", "GPT 5"), ("openai", "GPT 5"),
   ("claude", "Claude Sonnet 4"), ("claude.ai", "Claude Sonnet 4"),
   ("gemini", "Gemini 2.5"), ("google", "Gemini 2.5")]

/-- The claim's description of normalization: a known alias maps to its
canonical platform name regardless of letter case, and any string that is
not a known alias passes through unchanged. -/
def claimMappedPlatform (s : String) : String :=
  match lowerAliases.lookup (lowerStr s) with
  | some v => v
  | none => s

/-! ## Credit-deduction tail of `/api/enhance` (source lines 806–848) -/

/-- Alternatives of the output label-stripping regex
`/^(Refined Prompt:|Enhanced Prompt:|Improved Prompt:|Here's your enhanced prompt:|Here is your enhanced prompt:)\s*` `/i`. -/
def labelAlts : List (List Char) :=
  csl ["Refined Prompt:", "Enhanced Prompt:", "Improved Prompt:",
       "Here's your enhanced prompt:", "Here is your enhanced prompt:"]

/-- `enhancedPrompt.replace(labelRegex, '').trim()`: drop the first
case-insensitive label prefix together with the following whitespace run,
then trim. -/
def stripLabel (s : List Char) : List Char :=
  match labelAlts.find? (fun a => pfxOf (lower a) (lower s)) with
  | some a => trimJs ((s.drop a.length).dropWhile isJsSpace)
  | none => trimJs s

/-- The `credits_remaining` field of a success response: `'unlimited'`
or a number. -/
inductive CreditsField where
  | unlimited
  | num (n : Int)
deriving DecidableEq, Repr

/-- The JSON body of a successful enhancement response. -/
structure EnhanceSuccess where
  enhanced_prompt : List Char
  credits_remaining : CreditsField
  has_unlimited_access : Bool
deriving DecidableEq, Repr

/-- Outcome of the enhancement tail: a success body or an error status. -/
inductive EnhanceResp where
  | ok (r : EnhanceSuccess)
  | err (status : Nat) (msg : String)
deriving DecidableEq, Repr

/-- External calls performed by the enhancement tail, recorded in
execution order. -/
inductive Step where
  | modelCall
  | creditUpdate
deriving DecidableEq, Repr

/-- The tail of the `/api/enhance` handler after guide lookup and
meta-prompt construction (source lines 806–848): call the model (a
failure returns a 500 response and performs nothing else), strip a
leaking label from the returned text, attempt the credit decrement only
for non-unlimited users — the update outcome `deductFails` is read only
for logging, never for control flow — and respond with
`credits_remaining` computed as `currentCredits - 1` from the previously
fetched (and possibly reset) credit count. -/
def enhanceTail (hasUnlimitedAccess : Bool) (currentCredits : Int)
    (modelOutcome : Except String (List Char)) (deductFails : Bool) :
    List Step × EnhanceResp :=
  match modelOutcome with
  | .error _ => ([Step.modelCall], .err 500 "AI model request failed")
  | .ok txt =>
    let enhancedPrompt := stripLabel txt
    if hasUnlimitedAccess then
      ([Step.modelCall], .ok ⟨enhancedPrompt, CreditsField.unlimited, true⟩)
    else
      ([Step.modelCall, Step.creditUpdate],
       .ok ⟨enhancedPrompt, CreditsField.num (currentCredits - 1), false⟩)

/-! ## Auxiliary definitions for the claims -/

/-- Nonempty character list whose head is not whitespace (the shape of
every pattern alternative in the library). -/
def headNonWsB : List Char → Bool
  | [] => false
  | c :: _ => !isJsSpace c

/-- Replace a present-but-zero priority by an absent one. -/
def zeroToNone (pr : Principle) : Principle :=
  { pr with priority := if pr.priority = some 0 then none else pr.priority }

/-- A principle whose single detection pattern (the empty string) matches
every prompt. -/
def pDup : Principle := ⟨"dup", "", some [""], none⟩

/-- A principle with priority `0` and no detection patterns. -/
def pZero : Principle := ⟨"alpha", "", none, some 0⟩

/-- A principle with priority `5` and no detection patterns. -/
def pFive : Principle := ⟨"beta", "", none, some 5⟩

/-- A guide object with every optional field absent. -/
def emptyGuideInner : GuideInner := ⟨none, none, none, none⟩

/-! ## Properties of the stable insertion sort -/

/-- Inserting is a permutation of consing. -/
theorem perm_insOrd {α : Type} (k : α → Int) (x : α) (l : List α) :
    List.Perm (insOrd k x l) (x :: l) := by
  induction l with
  | nil => exact List.Perm.refl _
  | cons y ys ih =>
    simp only [insOrd]
    by_cases h : k y < k x
    · simp only [h, if_pos]
      exact (List.Perm.cons y ih).trans (List.Perm.swap x y ys)
    · simp only [h, if_neg, not_false_iff]
      exact List.Perm.refl _

/-- Sorting permutes the list. -/
theorem perm_sortByKey {α : Type} (k : α → Int) (l : List α) :
    List.Perm (sortByKey k l) l := by
  induction l with
  | nil => exact List.Perm.refl _
  | cons x xs ih =>
    exact (perm_insOrd k x (sortByKey k xs)).trans (List.Perm.cons x ih)

/-- Membership in an insertion. -/
theorem mem_insOrd {α : Type} (k : α → Int) (x a : α) (l : List α) :
    a ∈ insOrd k x l ↔ a = x ∨ a ∈ l := by
  rw [(perm_insOrd k x l).mem_iff, List.mem_cons]

/-- Inserting in front of a list in which no key is strictly smaller. -/
theorem insOrd_of_not_lt {α : Type} {k : α → Int} {x : α} {l : List α}
    (h : ∀ y ∈ l, ¬ k y < k x) : insOrd k x l = x :: l := by
  cases l with
  | nil => rfl
  | cons y ys => simp [insOrd, h y (List.mem_cons_self y ys)]

/-- Insertion preserves sortedness by the key. -/
theorem sorted_insOrd {α : Type} (k : α → Int) (x : α) {l : List α}
    (h : l.Pairwise (fun a b => k a ≤ k b)) :
    (insOrd k x l).Pairwise (fun a b => k a ≤ k b) := by
  induction l with
  | nil => simp [insOrd]
  | cons y ys ih =>
    rw [List.pairwise_cons] at h
    obtain ⟨hy, hys⟩ := h
    simp only [insOrd]
    by_cases hlt : k y < k x
    · simp only [hlt, if_pos]
      rw [List.pairwise_cons]
      refine ⟨fun z hz => ?_, ih hys⟩
      rcases (mem_insOrd k x z ys).mp hz with rfl | hz'
      · omega
      · exact hy z hz'
    · simp only [hlt, if_neg, not_false_iff]
      rw [List.pairwise_cons]
      refine ⟨fun z hz => ?_, ?_⟩
      · rcases List.mem_cons.mp hz with rfl | hz'
        · omega
        · have := hy z hz'; omega
      · rw [List.pairwise_cons]; exact ⟨hy, hys⟩

/-- The sort output is sorted by the key. -/
theorem sorted_sortByKey {α : Type} (k : α → Int) (l : List α) :
    (sortByKey k l).Pairwise (fun a b => k a ≤ k b) := by
  induction l with
  | nil => simp [sortByKey]
  | cons x xs ih => exact sorted_insOrd k x ih

/-- Filtering commutes with insertion into a sorted list. -/
theorem filter_insOrd {α : Type} (k : α → Int) (p : α → Bool) (x : α) {l : List α}
    (h : l.Pairwise (fun a b => k a ≤ k b)) :
    (insOrd k x l).filter p = if p x then insOrd k x (l.filter p) else l.filter p := by
  induction l with
  | nil =>
    cases hp : p x <;> simp [insOrd, List.filter, hp]
  | cons y ys ih =>
    rw [List.pairwise_cons] at h
    obtain ⟨hy, hys⟩ := h
    simp only [insOrd]
    by_cases hlt : k y < k x
    · simp only [hlt, if_pos, List.filter_cons]
      cases hpy : p y <;> cases hpx : p x <;>
        simp [ih hys, hpy, hpx, List.filter_cons, insOrd, hlt]
    · simp only [hlt, if_neg, not_false_iff]
      cases hpx : p x with
      | false => simp [List.filter_cons, hpx]
      | true =>
        rw [List.filter_cons, hpx]
        simp only [ite_true]
        rw [insOrd_of_not_lt]
        intro z hz
        have hz' := List.mem_of_mem_filter hz
        rcases List.mem_cons.mp hz' with rfl | hz''
        · omega
        · have := hy z hz''; omega

/-- Filtering commutes with the stable sort: sorting then dropping some
elements is the same as dropping them first. -/
theorem filter_sortByKey {α : Type} (k : α → Int) (p : α → Bool) (l : List α) :
    (sortByKey k l).filter p = sortByKey k (l.filter p) := by
  induction l with
  | nil => rfl
  | cons x xs ih =>
    simp only [sortByKey, List.filter_cons]
    rw [filter_insOrd k p x (sorted_sortByKey k xs), ih]
    cases hp : p x <;> simp [sortByKey, hp]

/-! ## Selector helper lemmas -/

/-- Sorting the whole principle pool and then dropping the titles already
selected equals sorting only the non-relevant remainder and dropping the
same titles: every relevant principle is itself dropped by the title
filter. -/
theorem select_filter_eq (L : List Char) (ps : List Principle) :
    ((sortByKey priKey ps).filter
      (fun p => !((ps.filter (principleMatches L)).any (fun rp => rp.title == p.title)))) =
    ((sortByKey priKey (ps.filter (fun pr => !(principleMatches L pr)))).filter
      (fun p => !((ps.filter (principleMatches L)).any (fun rp => rp.title == p.title)))) := by
  rw [filter_sortByKey, filter_sortByKey, List.filter_filter]
  refine congrArg (sortByKey priKey) (List.filter_congr ?_)
  intro x hx
  cases hm : principleMatches L x with
  | true =>
    have hxrel : x ∈ ps.filter (principleMatches L) := List.mem_filter.mpr ⟨hx, hm⟩
    have hany : (ps.filter (principleMatches L)).any (fun rp => rp.title == x.title) = true :=
      List.any_eq_true.mpr ⟨x, hxrel, by simp⟩
    simp [hany, hm]
  | false =>
    simp [hm]

/-- `zeroToNone` does not change the sort key actually used by the
source: `0` and `none` both read as `999`. -/
theorem priKey_zeroToNone (pr : Principle) : priKey (zeroToNone pr) = priKey pr := by
  rcases hp : pr.priority with _ | v
  · simp [zeroToNone, priKey, hp]
  · by_cases hv : v = 0
    · subst hv; simp [zeroToNone, priKey, hp]
    · simp [zeroToNone, priKey, hp, hv]

/-- `zeroToNone` keeps the title. -/
theorem title_zeroToNone (pr : Principle) : (zeroToNone pr).title = pr.title := rfl

/-- `zeroToNone` keeps the detection patterns, hence relevance. -/
theorem matches_zeroToNone (L : List Char) (pr : Principle) :
    principleMatches L (zeroToNone pr) = principleMatches L pr := rfl

/-- Filtering commutes with mapping a function that preserves the
predicate. -/
theorem filter_map_comm {α : Type} (f : α → α) (p : α → Bool)
    (hp : ∀ a, p (f a) = p a) (l : List α) :
    (l.map f).filter p = (l.filter p).map f := by
  induction l with
  | nil => rfl
  | cons x xs ih =>
    simp only [List.map_cons, List.filter_cons, hp]
    cases hpx : p x <;> simp [hpx, ih]

/-- Insertion commutes with mapping a key-preserving function. -/
theorem insOrd_map {α : Type} (k : α → Int) (f : α → α)
    (hk : ∀ a, k (f a) = k a) (x : α) (l : List α) :
    insOrd k (f x) (l.map f) = (insOrd k x l).map f := by
  induction l with
  | nil => rfl
  | cons y ys ih =>
    simp only [List.map_cons, insOrd, hk]
    by_cases h : k y < k x
    · simp [h, ih]
    · simp [h]

/-- Sorting commutes with mapping a key-preserving function. -/
theorem sortByKey_map {α : Type} (k : α → Int) (f : α → α)
    (hk : ∀ a, k (f a) = k a) (l : List α) :
    sortByKey k (l.map f) = (sortByKey k l).map f := by
  induction l with
  | nil => rfl
  | cons x xs ih =>
    simp only [List.map_cons, sortByKey, ih]
    exact insOrd_map k f hk x (sortByKey k xs)

/-- The whole selector is invariant under replacing a priority of `0` by
an absent priority in every input principle. -/
theorem select_zeroToNone (prompt : String) (ps : List Principle) :
    selectRelevantPrinciples prompt (ps.map zeroToNone) =
    (selectRelevantPrinciples prompt ps).map zeroToNone := by
  simp only [selectRelevantPrinciples, selectRelevantPrinciplesC]
  rw [filter_map_comm zeroToNone (principleMatches (lower prompt.data))
        (matches_zeroToNone (lower prompt.data)) ps,
      sortByKey_map priKey zeroToNone priKey_zeroToNone ps,
      List.length_map]
  have hany : ∀ p : Principle,
      (((ps.filter (principleMatches (lower prompt.data))).map zeroToNone).any
        (fun rp => rp.title == p.title)) =
      ((ps.filter (principleMatches (lower prompt.data))).any
        (fun rp => rp.title == p.title)) := by
    intro p
    rw [List.any_map]
    rfl
  simp only [hany]
  rw [filter_map_comm zeroToNone
        (fun p => !((ps.filter (principleMatches (lower prompt.data))).any
          (fun rp => rp.title == p.title)))
        (fun a => rfl) ((sortByKey priKey ps))]
  by_cases hc : (ps.filter (principleMatches (lower prompt.data))).length < 3 <;>
    simp [hc, List.map_take, List.map_append]

/-! ## Platform lookup helper lemmas -/

/-- ASCII lowercasing never produces an ASCII uppercase letter. -/
theorem toNat_lowerC_not_upper (c : Char) :
    ¬(65 ≤ (lowerC c).toNat ∧ (lowerC c).toNat ≤ 90) := by
  unfold lowerC
  by_cases h : 65 ≤ c.toNat ∧ c.toNat ≤ 90
  · rw [if_pos h]
    have hv : (c.toNat + 32).isValidChar := Or.inl (by omega)
    have ht : (Char.ofNat (c.toNat + 32)).toNat = c.toNat + 32 := by
      rw [Char.ofNat, dif_pos hv]; rfl
    rw [ht]; omega
  · rw [if_neg h]; exact h

/-- A lowercased string never equals a string containing an ASCII
uppercase letter. -/
theorem lowerStr_ne_of_upper_mem (s : String) (t : String)
    (hc : ∃ c ∈ t.data, 65 ≤ c.toNat ∧ c.toNat ≤ 90) : lowerStr s ≠ t := by
  intro he
  obtain ⟨c, hct, hcu⟩ := hc
  rw [← he] at hct
  have : c ∈ lower s.data := hct
  obtain ⟨c', _, rfl⟩ := List.mem_map.mp this
  exact toNat_lowerC_not_upper c' hcu

/-- A successful association lookup exhibits its row. -/
theorem lookup_mem {l : List (String × String)} {k v : String}
    (h : l.lookup k = some v) : (k, v) ∈ l := by
  induction l with
  | nil => simp [List.lookup] at h
  | cons a l ih =>
    rcases a with ⟨ka, va⟩
    cases hk : (k == ka) with
    | true =>
      simp only [List.lookup, hk] at h
      obtain rfl : va = v := by injection h
      obtain rfl : k = ka := eq_of_beq hk
      exact List.mem_cons_self _ _
    | false =>
      simp only [List.lookup, hk] at h
      exact List.mem_cons_of_mem _ (ih h)

/-! ## Whitespace-only prompts -/

/-- A pattern with a non-whitespace head char never prefixes a
whitespace-only text. -/
theorem pfx_false_of_ws {a : Char} (pat : List Char) (ha : isJsSpace a = false)
    {t : List Char} (ht : t.all isJsSpace = true) : pfxOf (a :: pat) t = false := by
  cases t with
  | nil => rfl
  | cons c cs =>
    have hc : isJsSpace c = true := (List.all_eq_true.mp ht) c (List.mem_cons_self _ _)
    have hne : (a == c) = false := by
      rw [beq_eq_false_iff_ne]
      intro he
      subst he
      rw [ha] at hc
      exact Bool.false_ne_true hc
    simp [pfxOf, hne]

/-- Variant of `pfx_false_of_ws` keyed on `headNonWsB`. -/
theorem pfx_false_of_ws' {pat : List Char} (hp : headNonWsB pat = true)
    {t : List Char} (ht : t.all isJsSpace = true) : pfxOf pat t = false := by
  cases pat with
  | nil => simp [headNonWsB] at hp
  | cons a rest => exact pfx_false_of_ws rest (by simpa [headNonWsB] using hp) ht

/-- If `f` rejects every whitespace-only text then no suffix of a
whitespace-only text satisfies it. -/
theorem anySuffix_false {f : List Char → Bool}
    (hf : ∀ t : List Char, t.all isJsSpace = true → f t = false) :
    ∀ {s : List Char}, s.all isJsSpace = true → anySuffix f s = false := by
  intro s hs
  induction s with
  | nil => simpa [anySuffix] using hf [] rfl
  | cons c cs ih =>
    rw [List.all_cons] at hs
    obtain ⟨hc, hcs⟩ := Bool.and_eq_true_iff.mp hs
    simp only [anySuffix, Bool.or_eq_false_iff]
    exact ⟨hf _ (by simp [List.all_cons, hc, hcs]), ih hcs⟩

/-- A pattern with a non-whitespace head never occurs in a
whitespace-only text. -/
theorem hasSub_false_of_ws {pat : List Char} (hp : headNonWsB pat = true)
    {s : List Char} (hs : s.all isJsSpace = true) : hasSub pat s = false :=
  anySuffix_false (fun _ ht => pfx_false_of_ws' hp ht) hs

/-- No alternative with a non-whitespace head occurs in a
whitespace-only text. -/
theorem containsAny_false_of_ws {alts : List (List Char)}
    (halts : alts.all headNonWsB = true) {s : List Char}
    (hs : s.all isJsSpace = true) : containsAny alts s = false := by
  rw [containsAny, List.any_eq_false]
  intro p hp
  have hh : headNonWsB p = true := (List.all_eq_true.mp halts) p hp
  simp [hasSub_false_of_ws hh hs]

/-- When no alternative prefixes the text, no alternative is picked. -/
theorem pickAlt_none {alts : List (List Char)} {s : List Char}
    (h : ∀ a ∈ alts, pfxOf a s = false) : pickAlt alts s = none := by
  induction alts with
  | nil => rfl
  | cons a as ih =>
    simp only [pickAlt, h a (List.mem_cons_self _ _), Bool.false_and, if_neg,
      Bool.false_eq_true, not_false_iff]
    exact ih (fun b hb => h b (List.mem_cons_of_mem _ hb))

/-- The boundary-counting scan finds nothing in a whitespace-only
text. -/
theorem scanAux_zero_of_ws {alts : List (List Char)}
    (halts : alts.all headNonWsB = true) :
    ∀ {t : List Char}, t.all isJsSpace = true →
      ∀ (prev : Option Char) (skip : Nat), scanAux alts t prev skip = 0 := by
  intro t
  induction t with
  | nil => intro _ prev skip; rfl
  | cons c cs ih =>
    intro ht prev skip
    rw [List.all_cons] at ht
    obtain ⟨hc, hcs⟩ := Bool.and_eq_true_iff.mp ht
    have hpick : pickAlt alts (c :: cs) = none := by
      apply pickAlt_none
      intro a ha
      have hh : headNonWsB a = true := (List.all_eq_true.mp halts) a ha
      exact pfx_false_of_ws' hh (by simp [List.all_cons, hc, hcs])
    cases skip with
    | succ k => simpa [scanAux] using ih hcs (some c) k
    | zero =>
      rcases prev with _ | p
      · simpa [scanAux, hpick] using ih hcs (some c) 0
      · cases hw : isWordC p <;>
          simpa [scanAux, hpick, hw] using ih hcs (some c) 0

/-- Dropping whitespace from a whitespace-only list empties it. -/
theorem dropWhile_ws {s : List Char} (hs : s.all isJsSpace = true) :
    s.dropWhile isJsSpace = [] := by
  induction s with
  | nil => rfl
  | cons c cs ih =>
    rw [List.all_cons] at hs
    obtain ⟨hc, hcs⟩ := Bool.and_eq_true_iff.mp hs
    simp [List.dropWhile_cons, hc, ih hcs]

/-- Trimming a whitespace-only list empties it. -/
theorem trimJs_ws {s : List Char} (hs : s.all isJsSpace = true) : trimJs s = [] := by
  rw [trimJs, dropWhile_ws hs]
  rfl

/-- Lowercasing fixes whitespace characters. -/
theorem lowerC_ws {c : Char} (hc : isJsSpace c = true) : lowerC c = c := by
  rw [lowerC, if_neg]
  simp only [isJsSpace, Bool.or_eq_true, beq_iff_eq, Bool.and_eq_true,
    decide_eq_true_eq] at hc
  intro hup
  omega

/-- Lowercasing preserves being whitespace-only. -/
theorem all_ws_lower {s : List Char} (hs : s.all isJsSpace = true) :
    (lower s).all isJsSpace = true := by
  rw [lower, List.all_map]
  rw [List.all_eq_true] at hs ⊢
  intro c hcm
  have := hs c hcm
  simp only [Function.comp]
  rw [lowerC_ws this]
  exact this

/-- Prefix stripping and trimming empty a whitespace-only prompt. -/
theorem stripConv_ws {s : List Char} (hs : s.all isJsSpace = true) :
    stripConv s = [] := by
  rw [stripConv]
  have halts : convAlts.all headNonWsB = true := by decide
  have hfind : convAlts.find? (fun a => pfxOf a (lower s)) = none := by
    rw [List.find?_eq_none]
    intro a ha
    simp [pfx_false_of_ws' ((List.all_eq_true.mp halts) a ha) (all_ws_lower hs)]
  rw [hfind]
  exact trimJs_ws hs

/-- `under \d+` does not occur at the head of whitespace-only text. -/
theorem underNumAt_false_of_ws {t : List Char} (ht : t.all isJsSpace = true) :
    underNumAt t = false := by
  rw [underNumAt, pfx_false_of_ws' (by decide) ht]
  rfl

/-- `function\s*\(` does not occur at the head of whitespace-only
text. -/
theorem funcCallAt_false_of_ws {t : List Char} (ht : t.all isJsSpace = true) :
    funcCallAt t = false := by
  rw [funcCallAt, pfx_false_of_ws' (by decide) ht]
  rfl

/-- No explicit-constraint signal in a whitespace-only prompt. -/
theorem constraints_false_of_ws {s : List Char} (hs : s.all isJsSpace = true) :
    hasExplicitConstraintsOf s = false := by
  rw [hasExplicitConstraintsOf, containsAny_false_of_ws (by decide) hs,
    anySuffix_false (fun _ ht => underNumAt_false_of_ws ht) hs]
  rfl

/-- No code-context signal in a whitespace-only prompt. -/
theorem codeContext_false_of_ws {s : List Char} (hs : s.all isJsSpace = true) :
    hasCodeContextOf s = false := by
  have hl := all_ws_lower hs
  rw [hasCodeContextOf,
    anySuffix_false (fun _ ht => funcCallAt_false_of_ws ht) hl,
    containsAny_false_of_ws (by decide) hl]
  have hcls : s.any (fun c => codeCtxChars.any (fun b => b == c)) = false := by
    rw [List.any_eq_false]
    intro c hcm
    have hc : isJsSpace c = true := (List.all_eq_true.mp hs) c hcm
    intro hany
    rw [List.any_eq_true] at hany
    obtain ⟨b, hb, hbe⟩ := hany
    have he : b = c := by simpa using hbe
    subst he
    simp only [codeCtxChars, List.mem_cons] at hb
    rcases hb with rfl | rfl | rfl | rfl | rfl | rfl | rfl | h
    all_goals first
      | (exact absurd hc (by decide))
      | (exact absurd h (List.not_mem_nil _))
  rw [hcls]
  rfl

/-- No sentence terminators in a whitespace-only prompt. -/
theorem sentenceCount_zero_of_ws {s : List Char} (hs : s.all isJsSpace = true) :
    sentenceCount s = 0 := by
  rw [sentenceCount, List.countP_eq_zero]
  intro c hcm
  have hc : isJsSpace c = true := (List.all_eq_true.mp hs) c hcm
  intro hp
  simp only [Bool.or_eq_true, beq_iff_eq] at hp
  rcases hp with (rfl | rfl) | rfl <;> exact absurd hc (by decide)

/-- Every whitespace-only prompt (the empty prompt included) classifies
as `vague`: its cleaned word count is 0 and no detector fires, so the
very-short standard rule returns `vague`. -/
theorem detect_vague_of_ws (s : String) (hs : s.data.all isJsSpace = true) :
    detectPromptComplexity s = Category.vague := by
  have hl := all_ws_lower hs
  have hcl : stripConv s.data = [] := stripConv_ws hs
  have hfill : scanCount fillerAlts none (lower s.data) = 0 :=
    scanAux_zero_of_ws (by decide) hl none 0
  have hmulti : scanCount multiAlts none (lower s.data) = 0 :=
    scanAux_zero_of_ws (by decide) hl none 0
  have hand : scanCount (csl ["and"]) none (lower s.data) = 0 :=
    scanAux_zero_of_ws (by decide) hl none 0
  have hconstr : hasExplicitConstraintsOf (lower s.data) = false :=
    constraints_false_of_ws hl
  have hcode : hasCodeContextOf s.data = false := codeContext_false_of_ws hs
  have hsent : sentenceCount s.data = 0 := sentenceCount_zero_of_ws hs
  have hfeat : analyzePrompt s.data =
      { wordCount := 0, isShortButClear := false, isTechnicalQuestion := false,
        hasHighFillerDensity := false, hasMultipleTasks := false,
        hasExplicitConstraints := false, hasCodeContext := false,
        hasDirectTask := false, hasSpecificSubject := false,
        hasLanguageOrTool := false, isVeryShort := true, lacksContext := true,
        isAmbiguous := false, hasMultipleSentences := false,
        hasStructure := false, isLong := false } := by
    simp only [analyzePrompt, hcl, hfill, hmulti, hand, hconstr, hcode, hsent]
    rfl
  rw [detectPromptComplexity, detectPromptComplexityC, hfeat]
  decide

/-! ## Spec §8 test vectors -/

example : detectPromptComplexity "python fibonacci" = Category.simple := by decide

set_option maxRecDepth 4096 in
example :
    detectPromptComplexity "make something cool, you know, like really nice stuff" =
    Category.vague := by decide

set_option maxRecDepth 4096 in
example :
    detectPromptComplexity
      "write a function and also add tests and also write docs and also deploy it" =
    Category.moderate := by decide

/-! ## Claims -/

/-- C1: for every input string the complexity classifier evaluates its
rules in exactly the specified order — edge rules (a) short-but-clear,
(b) technical question, (c) code context with direct-task verb, (d) high
filler density, (e) multiple tasks, (f) explicit constraints, then
standard rules (a) direct task with subject/tool and word count in
[4,20], (b) long or multi-sentence structured, (c) very short or
ambiguous — and returns the category of the first rule whose condition
holds, `moderate` when no rule fires: the classifier coincides with
first-match evaluation of the spec's ordered rule list. -/
theorem c1_complexity_rule_order (s : String) :
    detectPromptComplexity s = firstFire (complexityRules (analyzePrompt s.data)) := rfl

/-- C2: the complexity classifier, the task-type classifier and the
principle selector are total Lean functions; the classifiers always land
in their declared result sets, and a guide document with any optional
field absent contributes an empty fragment set for that field. -/
theorem c2_core_total :
    (∀ s : String,
       detectPromptComplexity s = Category.simple ∨
       detectPromptComplexity s = Category.moderate ∨
       detectPromptComplexity s = Category.detailed ∨
       detectPromptComplexity s = Category.vague) ∧
    (∀ s : String,
       detectTaskType s = TaskType.code_generation ∨
       detectTaskType s = TaskType.formal_writing ∨
       detectTaskType s = TaskType.creative_writing ∨
       detectTaskType s = TaskType.data_analysis ∨
       detectTaskType s = TaskType.reasoning_and_analysis ∨
       detectTaskType s = TaskType.general) ∧
    (∀ (p : List Char) (tt : TaskType),
       selectedPrinciplesOf p ⟨none⟩ = [] ∧ selectedStructuralOf ⟨none⟩ = [] ∧
       selectedAntiPatternsOf ⟨none⟩ = [] ∧ selectedTaskGuidesOf tt ⟨none⟩ = []) ∧
    (∀ (p : List Char) (tt : TaskType) (gi : GuideInner),
       (gi.principles = none → selectedPrinciplesOf p ⟨some gi⟩ = []) ∧
       (gi.structural_elements = none → selectedStructuralOf ⟨some gi⟩ = []) ∧
       (gi.anti_patterns = none → selectedAntiPatternsOf ⟨some gi⟩ = []) ∧
       (gi.task_specific_guides = none → selectedTaskGuidesOf tt ⟨some gi⟩ = [])) := by
  refine ⟨fun s => ?_, fun s => ?_, fun p tt => ?_, fun p tt gi => ?_⟩
  · cases h : detectPromptComplexity s <;> simp [h]
  · cases h : detectTaskType s <;> simp [h]
  · refine ⟨rfl, rfl, rfl, ?_⟩
    by_cases htt : tt = TaskType.general <;> simp [selectedTaskGuidesOf, htt]
  · refine ⟨fun h => ?_, fun h => ?_, fun h => ?_, fun h => ?_⟩
    · simp [selectedPrinciplesOf, h]
    · simp [selectedStructuralOf, h]
    · simp [selectedAntiPatternsOf, h]
    · by_cases htt : tt = TaskType.general <;> simp [selectedTaskGuidesOf, htt, h]

/-- C2 witness: the absent-field hypotheses are discharged at the
all-absent guide object. -/
theorem c2_core_total_witness :
    emptyGuideInner.principles = none ∧
    selectedPrinciplesOf [] ⟨some emptyGuideInner⟩ = [] :=
  ⟨rfl, (c2_core_total.2.2.2 [] TaskType.general emptyGuideInner).1 rfl⟩

/-- C3 counterexample: with two identically titled principles that both
match the prompt, the selector returns both, so its output has two
entries with the same title — the claim fails for arbitrary input
arrays. -/
theorem c3_duplicate_titles_cex :
    ¬ ((selectRelevantPrinciples "" [pDup, pDup]).length ≤ 5 ∧
       ((selectRelevantPrinciples "" [pDup, pDup]).map Principle.title).Nodup) := by
  decide

/-- C3 as amended: for every prompt and every principle array whose
titles are pairwise distinct, the selector returns at most 5 entries and
no two returned entries share a title. -/
theorem c3_select_bounded_nodup (prompt : String) (ps : List Principle)
    (h : (ps.map Principle.title).Nodup) :
    (selectRelevantPrinciples prompt ps).length ≤ 5 ∧
    ((selectRelevantPrinciples prompt ps).map Principle.title).Nodup := by
  unfold selectRelevantPrinciples selectRelevantPrinciplesC
  constructor
  · simp [List.length_take]
  · set L := lower prompt.data with hL
    set rel := ps.filter (principleMatches L) with hrel
    have hrelnd : (rel.map Principle.title).Nodup :=
      List.Nodup.sublist ((List.filter_sublist ps).map Principle.title) h
    have hsortnd : ((sortByKey priKey ps).map Principle.title).Nodup :=
      (List.Perm.nodup_iff ((perm_sortByKey priKey ps).map Principle.title)).mpr h
    by_cases hc : rel.length < 3
    · simp only [hc, if_pos]
      rw [List.map_take]
      refine List.Nodup.sublist (List.take_sublist _ _) ?_
      rw [List.map_append, List.nodup_append]
      set q : Principle → Bool :=
        fun p => !(rel.any (fun rp => rp.title == p.title)) with hq
      refine ⟨hrelnd, ?_, ?_⟩
      · refine List.Nodup.sublist ?_ hsortnd
        exact ((List.take_sublist _ _).trans (List.filter_sublist (sortByKey priKey ps))).map _
      · intro t ht1 ht2
        obtain ⟨x, hx, hxt⟩ := List.mem_map.mp ht2
        have hxf : x ∈ (sortByKey priKey ps).filter q := List.mem_of_mem_take hx
        have hqx : q x = true := List.of_mem_filter hxf
        obtain ⟨rp, hrp, hrpt⟩ := List.mem_map.mp ht1
        have : rel.any (fun rp => rp.title == x.title) = true :=
          List.any_eq_true.mpr ⟨rp, hrp, by rw [hrpt, hxt]; exact beq_self_eq_true _⟩
        rw [hq] at hqx
        simp only [this] at hqx
        exact absurd hqx (by simp)
    · simp only [hc, if_neg, not_false_iff]
      rw [List.map_take]
      exact List.Nodup.sublist (List.take_sublist _ _) hrelnd

/-- C3 witness: the distinct-titles hypothesis is discharged at a
concrete two-principle pool. -/
theorem c3_select_bounded_nodup_witness :
    (([pZero, pFive].map Principle.title).Nodup) ∧
    ((selectRelevantPrinciples "x" [pZero, pFive]).length ≤ 5 ∧
     ((selectRelevantPrinciples "x" [pZero, pFive]).map Principle.title).Nodup) :=
  ⟨by decide, c3_select_bounded_nodup "x" [pZero, pFive] (by decide)⟩

/-- C4 counterexample: with a priority-0 principle and a priority-5
principle (no detection patterns, prompt matching nothing), the source
backfills the priority-5 principle first — `priority || 999` reads a
present `0` as `999` — while the claim's ascending-priority order puts
the priority-0 principle first. -/
theorem c4_priority_zero_cex :
    selectRelevantPrinciples "x" [pZero, pFive] ≠
    claimSelectPrinciples "x" [pZero, pFive] := by
  decide

/-- C4 as amended: the selector collects the principles whose
detection patterns contain a case-insensitive substring of the prompt;
if fewer than 3 exist it appends principles from the remainder in
ascending priority order — a principle whose priority is absent *or
equal to 0* sorting with key 999 — skipping titles already selected,
until 5 are selected or the pool is exhausted, and truncates to the
first 5. -/
theorem c4_select_algorithm (prompt : String) (ps : List Principle) :
    selectRelevantPrinciples prompt ps = amendedSelectPrinciples prompt ps := by
  unfold selectRelevantPrinciples selectRelevantPrinciplesC amendedSelectPrinciples specSelect
  by_cases hc : (ps.filter (principleMatches (lower prompt.data))).length < 3
  · simp only [hc, if_pos]
    rw [select_filter_eq]
  · simp only [hc, if_neg, not_false_iff, List.append_nil]

/-- C5: for every prompt string the task-type classifier coincides with
first-match evaluation of the ordered category checks — code_generation,
formal_writing, creative_writing, data_analysis, reasoning_and_analysis,
default `general` — and always returns one of the six task types. -/
theorem c5_task_type_order :
    (∀ s : String, detectTaskType s = firstTask (taskRules (lower s.data))) ∧
    (∀ s : String,
       detectTaskType s = TaskType.code_generation ∨
       detectTaskType s = TaskType.formal_writing ∨
       detectTaskType s = TaskType.creative_writing ∨
       detectTaskType s = TaskType.data_analysis ∨
       detectTaskType s = TaskType.reasoning_and_analysis ∨
       detectTaskType s = TaskType.general) :=
  ⟨fun _ => rfl, fun s => by cases h : detectTaskType s <;> simp [h]⟩

/-- C6 counterexample: `"toString"` is not a known alias, yet the
source's `platformMapping["toString"]` finds the inherited truthy
`Object.prototype.toString`, so the string is not passed through
unchanged — the first access already produces the prototype member. -/
theorem c6_proto_lookup_cex :
    mappedPlatform "toString" = JsVal.protoMember "toString" ∧
    mappedPlatform "toString" ≠ JsVal.str (claimMappedPlatform "toString") := by
  constructor
  · decide
  · decide

/-- C6 as amended: the platform-normalization step maps every known
alias to its canonical platform name regardless of the alias's letter
case (the exact-case key is tried first, then the lowercased key), and
returns unchanged any string that is not a known alias — *provided
neither the string itself nor its lowercasing is an `Object.prototype`
property name*; for those the object access finds the inherited truthy
prototype member instead of passing the string through. -/
theorem c6_platform_alias (s : String)
    (hp : s ∉ protoProps)
    (hpl : lowerStr s ∉ protoProps) :
    mappedPlatform s = JsVal.str (claimMappedPlatform s) := by
  have hll : platformAliases.lookup (lowerStr s) = lowerAliases.lookup (lowerStr s) := by
    have h1 : (lowerStr s == "ChatGPT") = false := by
      rw [beq_eq_false_iff_ne]
      exact lowerStr_ne_of_upper_mem s _ ⟨'C', by decide, by decide⟩
    have h2 : (lowerStr s == "Claude") = false := by
      rw [beq_eq_false_iff_ne]
      exact lowerStr_ne_of_upper_mem s _ ⟨'C', by decide, by decide⟩
    have h3 : (lowerStr s == "Gemini") = false := by
      rw [beq_eq_false_iff_ne]
      exact lowerStr_ne_of_upper_mem s _ ⟨'G', by decide, by decide⟩
    simp only [platformAliases, lowerAliases, List.lookup, h1, h2, h3]
  rcases h : platformAliases.lookup s with _ | v
  · unfold mappedPlatform jsIndex claimMappedPlatform
    rw [h, ← hll]
    cases h2 : platformAliases.lookup (lowerStr s) with
    | some v' => simp [hp]
    | none => simp [hp, hpl]
  · have hm : (s, v) ∈ platformAliases := lookup_mem h
    have hs : s ∈ ["chatgpt", "gpt", "openai", "claude", "claude.ai",
        "gemini", "google", "ChatGPT", "Claude", "Gemini"] := by
      simpa [platformAliases] using List.mem_map_of_mem Prod.fst hm
    fin_cases hs <;> decide

/-- C6 witness: the non-prototype-name hypotheses are discharged at a
known alias in a fresh letter case and the conclusion gives its
canonical name. -/
theorem c6_platform_alias_witness :
    ("CHATGPT" ∉ protoProps ∧ lowerStr "CHATGPT" ∉ protoProps) ∧
    mappedPlatform "CHATGPT" = JsVal.str (claimMappedPlatform "CHATGPT") :=
  ⟨⟨by decide, by decide⟩, c6_platform_alias "CHATGPT" (by decide) (by decide)⟩

set_option maxRecDepth 8192 in
/-- C7: on the exact REST-API prompt the classifier returns `simple`,
and the rule trace shows why: the first five rule conditions are false
and the sixth — explicit constraints together with a direct-task verb —
is the first to fire, so the `detailed` standard rule (eighth, false
here anyway) is never reached. -/
theorem c7_rest_api_simple :
    detectPromptComplexity
      "Build a REST API in Python using Flask that returns user data as JSON, without external dependencies, under 50 lines" =
      Category.simple ∧
    (complexityRules (analyzePrompt (sChars
      "Build a REST API in Python using Flask that returns user data as JSON, without external dependencies, under 50 lines"))).map
        Prod.fst =
      [false, false, false, false, false, true, true, false, false] := by
  constructor
  · decide
  · decide

/-- C8: the complexity classifier returns `vague` (not the default
`moderate`) on the empty string and on every whitespace-only string,
without failing: the cleaned word count is 0, so the very-short rule
fires. -/
theorem c8_whitespace_vague :
    detectPromptComplexity "" = Category.vague ∧
    ∀ s : String, s.data.all isJsSpace = true →
      detectPromptComplexity s = Category.vague :=
  ⟨detect_vague_of_ws "" (by decide), fun s hs => detect_vague_of_ws s hs⟩

/-- C8 witness: the whitespace-only hypothesis is discharged at a
concrete space-and-tab string. -/
theorem c8_whitespace_vague_witness :
    (" \t ").data.all isJsSpace = true ∧
    detectPromptComplexity " \t " = Category.vague :=
  ⟨by decide, c8_whitespace_vague.2 " \t " (by decide)⟩

/-- C9: in the backfill sort, a principle whose priority field equals 0
is ordered exactly as if the priority were absent — the falsy-default
read `priority || 999` gives both the sort key 999 — so it sorts after
every candidate with priority in (0, 999), not first; the whole selector
is invariant under replacing priority 0 by an absent priority. -/
theorem c9_priority_zero_falsy :
    (∀ pr : Principle, pr.priority = some 0 →
       priKey pr = 999 ∧ priKey pr = priKey { pr with priority := none }) ∧
    (∀ pr pr' : Principle, pr.priority = some 0 → ∀ v : Int,
       pr'.priority = some v → 0 < v → v < 999 → priKey pr' < priKey pr) ∧
    (∀ (prompt : String) (ps : List Principle),
       selectRelevantPrinciples prompt (ps.map zeroToNone) =
       (selectRelevantPrinciples prompt ps).map zeroToNone) := by
  refine ⟨?_, ?_, select_zeroToNone⟩
  · intro pr h
    simp [priKey, h]
  · intro pr pr' h v h' hv hv'
    have hvne : ¬ v = 0 := by omega
    simp [priKey, h, h', hvne]
    omega

/-- C9 witness: the hypotheses are discharged at the concrete
priority-0 and priority-5 principles. -/
theorem c9_priority_zero_falsy_witness :
    (priKey pZero = 999 ∧ priKey pZero = priKey { pZero with priority := none }) ∧
    priKey pFive < priKey pZero ∧
    selectRelevantPrinciples "x" ([pZero, pFive].map zeroToNone) =
      (selectRelevantPrinciples "x" [pZero, pFive]).map zeroToNone :=
  ⟨c9_priority_zero_falsy.1 pZero rfl,
   c9_priority_zero_falsy.2.1 pZero pFive rfl 5 rfl (by decide) (by decide),
   c9_priority_zero_falsy.2.2 "x" [pZero, pFive]⟩

/-- C10: for a non-unlimited user, the credit decrement is attempted
only after the model call succeeds (on a model failure the action trace
contains only the model call and a 500 error is returned); on success
the response reports `credits_remaining` as the fetched credit count
minus one and still returns the enhanced prompt whether or not the
decrement update fails — the two outcomes of `deductFails` produce
identical results. -/
theorem c10_credit_deduction (cc : Int) (txt : List Char) (e : String) (df df' : Bool) :
    enhanceTail false cc (Except.ok txt) df =
      ([Step.modelCall, Step.creditUpdate],
       EnhanceResp.ok ⟨stripLabel txt, CreditsField.num (cc - 1), false⟩) ∧
    enhanceTail false cc (Except.ok txt) df = enhanceTail false cc (Except.ok txt) df' ∧
    enhanceTail false cc (Except.error e) df =
      ([Step.modelCall], EnhanceResp.err 500 "AI model request failed") :=
  ⟨rfl, rfl, rfl⟩

end PromptPerfect
